import Mathlib

/-!
Verification of the ca-mera Game Boy Camera image-processing pipeline
(`src/gbcProcessor.js`, `src/palettes.js`) against its specification.

The JavaScript pipeline is shallowly embedded: an `ImageData` becomes an
`Image` (width, height, row-major list of RGBA pixels with ℕ channels);
JavaScript floating-point arithmetic is modelled by exact rational
arithmetic (ℚ); a store into a `Uint8ClampedArray` slot is modelled by
`toByte` (clamp to [0,255], then round half to even, the WebIDL clamped
conversion). Stages that mutate pixel data in place become functions from
`Image` to `Image`; thrown JS exceptions become an `Except String` result
(the `Unknown palette` Error, and the TypeError raised when a key inherited
from `Object.prototype` passes the `!palette` guard and `.colors` of the
inherited value is undefined).
-/

namespace CaMera

/-- One RGBA pixel: four 8-bit channels, stored as ℕ. -/
structure RGBA where
  r : ℕ
  g : ℕ
  b : ℕ
  a : ℕ
  deriving DecidableEq

/-- An ImageData: width, height, and a row-major pixel list.
Pixel (x, y) lives at list index y * width + x, mirroring the flat RGBA
buffer index (y * width + x) * 4 of the source. -/
structure Image where
  width : ℕ
  height : ℕ
  pixels : List RGBA
  deriving DecidableEq

/-- A well-formed image has exactly width * height pixels
(the RasterImage invariant: buffer length = W×H×4). -/
def Image.Wf (img : Image) : Prop :=
  img.pixels.length = img.width * img.height

instance (img : Image) : Decidable img.Wf := by
  unfold Image.Wf; infer_instance

/-- Pixel read at (x, y): list lookup at y * width + x. -/
def Image.get (img : Image) (x y : ℕ) : RGBA :=
  img.pixels.getD (y * img.width + x) ⟨0, 0, 0, 0⟩

/-- Floor of a rational, computed from its normalized representation
(kernel-reducible, unlike the general `Int.floor`). -/
def ratFloor (q : ℚ) : ℤ := q.num / q.den

/-- Rounding half to even, the rounding mode of a `Uint8ClampedArray` store. -/
def roundHalfEven (q : ℚ) : ℤ :=
  let f := ratFloor q
  if q - f < 1/2 then f
  else if 1/2 < q - f then f + 1
  else if 2 ∣ f then f else f + 1

/-- Clamp a rational to the byte range [0, 255]. -/
def clamp255 (q : ℚ) : ℚ := max 0 (min 255 q)

/-- Storing a rational into a `Uint8ClampedArray` slot: clamp to [0, 255],
then round half to even. -/
def toByte (q : ℚ) : ℕ := (roundHalfEven (clamp255 q)).toNat

end CaMera

namespace CaMera

/-! Embedding of `src/palettes.js`. -/

/-- Value of one hex digit character (`parseInt` base-16 digit semantics;
other characters make the string malformed, which the spec leaves
undefined — modelled as digit value 0). -/
def hexDigitVal (c : Char) : ℕ :=
  if '0' ≤ c ∧ c ≤ '9' then c.toNat - '0'.toNat
  else if 'a' ≤ c ∧ c ≤ 'f' then c.toNat - 'a'.toNat + 10
  else if 'A' ≤ c ∧ c ≤ 'F' then c.toNat - 'A'.toNat + 10
  else 0

/-- Base-16 accumulation of `parseInt(s, 16)` over the character list. -/
def parseHexDigits (s : List Char) : ℕ :=
  s.foldl (fun acc c => 16 * acc + hexDigitVal c) 0

/-- Embeds `hexToRgb(hex)`: drop the leading `#`, parse the rest as a
base-16 number n, and return ((n >> 16) & 255, (n >> 8) & 255, n & 255). -/
def hexToRgb (hex : String) : ℕ × ℕ × ℕ :=
  let n := parseHexDigits (hex.data.drop 1)
  ((n >>> 16) &&& 255, (n >>> 8) &&& 255, n &&& 255)

/-- One palette of the registry: display name and 4 CSS hex colors,
darkest to lightest. -/
structure Palette where
  name : String
  colors : List String
  deriving DecidableEq

/-- Embeds the `PALETTES` object literal: the six built-in palettes,
keyed by their property name, in source order. -/
def PALETTES : List (String × Palette) :=
  [("classic", ⟨"Classic GB", ["#0f380f", "#306230", "#8bac0f", "#9bbc0f"]⟩),
   ("sunset", ⟨"Sunset", ["#1a1034", "#8b3a62", "#e05a46", "#f2d09e"]⟩),
   ("amber", ⟨"Amber", ["#1b1000", "#6b4e00", "#c8a800", "#ffffff"]⟩),
   ("teal", ⟨"Teal", ["#0d1b0e", "#1a5c2a", "#3cb460", "#9fffb0"]⟩),
   ("noir", ⟨"Noir", ["#000000", "#555555", "#aaaaaa", "#ffffff"]⟩),
   ("vaporwave", ⟨"Vapor", ["#2b0040", "#8000a0", "#ff6090", "#ffcc80"]⟩)]

/-- Result of the JS property read `PALETTES[paletteKey]`: an own key of the
object literal yields its palette; a key found on the prototype chain
(`Object.prototype`) yields a truthy inherited value that is not a palette;
any other key reads `undefined`. -/
inductive PropRead where
  | own (palette : Palette)
  | inherited
  | undefined
  deriving DecidableEq

/-- The property names a plain object literal inherits from
`Object.prototype` in a browser (standard methods plus the Annex B
accessors). -/
def protoKeys : List String :=
  ["constructor", "hasOwnProperty", "isPrototypeOf", "propertyIsEnumerable",
   "toLocaleString", "toString", "valueOf", "__proto__",
   "__defineGetter__", "__defineSetter__", "__lookupGetter__", "__lookupSetter__"]

/-- Property lookup `PALETTES[paletteKey]` of the object literal, embedded as
a key comparison chain over the six own properties followed by the prototype
chain: a key inherited from `Object.prototype` (such as `toString` or
`__proto__`) reads a truthy non-palette value, everything else `undefined`. -/
def lookupPalette (key : String) : PropRead :=
  if key = "classic" then .own ⟨"Classic GB", ["#0f380f", "#306230", "#8bac0f", "#9bbc0f"]⟩
  else if key = "sunset" then .own ⟨"Sunset", ["#1a1034", "#8b3a62", "#e05a46", "#f2d09e"]⟩
  else if key = "amber" then .own ⟨"Amber", ["#1b1000", "#6b4e00", "#c8a800", "#ffffff"]⟩
  else if key = "teal" then .own ⟨"Teal", ["#0d1b0e", "#1a5c2a", "#3cb460", "#9fffb0"]⟩
  else if key = "noir" then .own ⟨"Noir", ["#000000", "#555555", "#aaaaaa", "#ffffff"]⟩
  else if key = "vaporwave" then .own ⟨"Vapor", ["#2b0040", "#8000a0", "#ff6090", "#ffcc80"]⟩
  else if key ∈ protoKeys then .inherited
  else .undefined

/-- Embeds `getPaletteRgb(paletteKey)`: an `undefined` read fails the
`!palette` guard and throws `Unknown palette: key`; a truthy value inherited
from the prototype chain passes the guard, and reading `.colors` of it gives
`undefined`, so the subsequent `.map` throws a TypeError (modelled as an
error whose message is the TypeError text, not the Unknown-palette message);
an own palette maps its 4 hex colors through `hexToRgb`. -/
def getPaletteRgb (paletteKey : String) : Except String (List (ℕ × ℕ × ℕ)) :=
  match lookupPalette paletteKey with
  | .undefined => .error ("Unknown palette: " ++ paletteKey)
  | .inherited => .error "TypeError: palette.colors is undefined"
  | .own palette => .ok (palette.colors.map hexToRgb)

end CaMera

namespace CaMera

/-! Embedding of `src/gbcProcessor.js`. -/

/-- Game Boy Camera native width. -/
def GBC_WIDTH : ℕ := 128

/-- Game Boy Camera native height. -/
def GBC_HEIGHT : ℕ := 112

/-- The 4×4 Bayer ordered-dithering matrix of the source, normalized to the
0–1 range: entry (row, col) is the source literal `BAYER_4x4[row][col]`. -/
def BAYER_4x4 : List (List ℚ) :=
  [[0 / 16, 8 / 16, 2 / 16, 10 / 16],
   [12 / 16, 4 / 16, 14 / 16, 6 / 16],
   [3 / 16, 11 / 16, 1 / 16, 9 / 16],
   [15 / 16, 7 / 16, 13 / 16, 5 / 16]]

/-- Matrix read `BAYER_4x4[y % 4][x % 4]`. -/
def bayerAt (y x : ℕ) : ℚ :=
  (BAYER_4x4.getD (y % 4) []).getD (x % 4) 0

/-- The 3×3 edge-enhancement kernel of the source, in row-major order. -/
def EDGE_KERNEL : List ℤ :=
  [0, -1, 0,
   -1, 5, -1,
   0, -1, 0]

/-- Kernel read `EDGE_KERNEL[i]`. -/
def kernelAt (i : ℕ) : ℤ := EDGE_KERNEL.getD i 0

/-- Per-pixel body of `toGrayscale`: lum = 0.299 r + 0.587 g + 0.114 b,
stored into the r, g, b slots of the clamped byte array; alpha untouched. -/
def grayPixel (p : RGBA) : RGBA :=
  let lum := toByte ((299 / 1000 : ℚ) * p.r + (587 / 1000 : ℚ) * p.g + (114 / 1000 : ℚ) * p.b)
  ⟨lum, lum, lum, p.a⟩

/-- Embeds `toGrayscale(imageData)`: the in-place loop over the pixel
array becomes a map of `grayPixel` over the pixel list. -/
def toGrayscale (imageData : Image) : Image :=
  ⟨imageData.width, imageData.height, imageData.pixels.map grayPixel⟩

/-- Per-channel body of `applyContrast`: reads the red slot `d[i]`, computes
v = clamp(((d[i]/255 − 0.5)·factor + 0.5)·255, 0, 255), stored as a byte. -/
def contrastValue (factor : ℚ) (v : ℕ) : ℕ :=
  toByte (clamp255 ((((v : ℚ) / 255 - 1/2) * factor + 1/2) * 255))

/-- Embeds `applyContrast(imageData, factor)`: each pixel's r, g, b slots
are set to `contrastValue factor` of its red slot; alpha untouched. -/
def applyContrast (imageData : Image) (factor : ℚ) : Image :=
  ⟨imageData.width, imageData.height,
   imageData.pixels.map (fun p =>
     let v := contrastValue factor p.r
     ⟨v, v, v, p.a⟩)⟩

/-- The convolution sum of `edgeEnhance` at (x, y): the double loop over
ky, kx ∈ {−1, 0, 1} (here shifted to 0, 1, 2) accumulating
`original[((y+ky)·width+(x+kx))·4] · EDGE_KERNEL[(ky+1)·3+(kx+1)]`,
reading the red slot of the snapshot `orig`. -/
def edgeSum (orig : Image) (x y : ℕ) : ℤ :=
  (List.range 3).foldl (fun acc ky =>
    (List.range 3).foldl (fun acc2 kx =>
      acc2 + ((orig.get (x + kx - 1) (y + ky - 1)).r : ℤ) * kernelAt (ky * 3 + kx))
      acc) 0

/-- Interior-pixel body of `edgeEnhance`: blend the snapshot value with the
convolution sum, clamp, and store into r, g, b; alpha untouched. -/
def enhancedPixel (orig : Image) (strength : ℚ) (x y : ℕ) (p : RGBA) : RGBA :=
  let enhanced : ℚ := (p.r : ℚ) * (1 - strength) + (edgeSum orig x y : ℚ) * strength
  let v := toByte enhanced
  ⟨v, v, v, p.a⟩

/-- Embeds `edgeEnhance(imageData, strength)`: `original` is a snapshot of
the pixel data taken before the loop, so every neighborhood read goes to
the pre-stage image; the loops cover 1 ≤ y ≤ height−2, 1 ≤ x ≤ width−2
and leave border pixels untouched. -/
def edgeEnhance (imageData : Image) (strength : ℚ) : Image :=
  ⟨imageData.width, imageData.height,
   imageData.pixels.mapIdx (fun i p =>
     let x := i % imageData.width
     let y := i / imageData.width
     if 1 ≤ x ∧ x + 1 < imageData.width ∧ 1 ≤ y ∧ y + 1 < imageData.height then
       enhancedPixel imageData strength x y p
     else p)⟩

/-- Quantization of `ditherAndColorize`: shade 0 if dithered < 0.25, 1 if
< 0.5, 2 if < 0.75, else 3 — no clamping before the comparisons. -/
def shadeOf (dithered : ℚ) : ℕ :=
  if dithered < 1/4 then 0
  else if dithered < 1/2 then 1
  else if dithered < 3/4 then 2
  else 3

/-- Per-pixel body of `ditherAndColorize`: gray = red slot / 255,
threshold = BAYER_4x4[y % 4][x % 4] − 0.5, spread = 0.33,
dithered = gray + threshold·spread; quantize to a shade, then write the
palette color of that shade and alpha 255. -/
def ditherPixel (paletteRgb : List (ℕ × ℕ × ℕ)) (x y : ℕ) (p : RGBA) : RGBA :=
  let gray : ℚ := (p.r : ℚ) / 255
  let threshold : ℚ := bayerAt y x - 1/2
  let spread : ℚ := 33 / 100
  let dithered := gray + threshold * spread
  let shade := shadeOf dithered
  let c := paletteRgb.getD shade (0, 0, 0)
  ⟨c.1, c.2.1, c.2.2, 255⟩

/-- Embeds `ditherAndColorize(imageData, paletteRgb)`: the double loop over
(y, x) becomes an index-aware map, pixel index i having x = i % width and
y = i / width. -/
def ditherAndColorize (imageData : Image) (paletteRgb : List (ℕ × ℕ × ℕ)) : Image :=
  ⟨imageData.width, imageData.height,
   imageData.pixels.mapIdx (fun i p =>
     ditherPixel paletteRgb (i % imageData.width) (i / imageData.width) p)⟩

/-- Average of one channel over the source-pixel box
[x0, x1) × [y0, y1) (rational arithmetic; empty box yields 0). -/
def boxAvgChannel (src : Image) (ch : RGBA → ℕ) (x0 x1 y0 y1 : ℕ) : ℚ :=
  let xs := (List.range (x1 - x0)).map (· + x0)
  let ys := (List.range (y1 - y0)).map (· + y0)
  ((ys.map (fun y => ((xs.map (fun x => ((ch (src.get x y) : ℚ)))).sum))).sum) /
    (((x1 - x0) * (y1 - y0) : ℕ) : ℚ)

/-- Modelled from the spec: the source `downscale` delegates the actual
resampling to the browser canvas (`drawImage` onto an `OffscreenCanvas`
followed by `getImageData`), which is code outside this repository. The
spec describes it as area-weighted resampling producing exactly
targetW×targetH; it is modelled here as box averaging: output pixel (x, y)
is the per-channel average of the source box
[x·W/tW, (x+1)·W/tW) × [y·H/tH, (y+1)·H/tH), stored as bytes. When the
target size equals the source size each box is the single source pixel. -/
def downscale (source : Image) (targetW targetH : ℕ) : Image :=
  ⟨targetW, targetH,
   List.ofFn (fun i : Fin (targetW * targetH) =>
     let x := i.val % targetW
     let y := i.val / targetW
     let x0 := x * source.width / targetW
     let x1 := (x + 1) * source.width / targetW
     let y0 := y * source.height / targetH
     let y1 := (y + 1) * source.height / targetH
     ⟨toByte (boxAvgChannel source RGBA.r x0 x1 y0 y1),
      toByte (boxAvgChannel source RGBA.g x0 x1 y0 y1),
      toByte (boxAvgChannel source RGBA.b x0 x1 y0 y1),
      toByte (boxAvgChannel source RGBA.a x0 x1 y0 y1)⟩)⟩

/-- Processing options of `processFrame`; the source defaults are
contrast = 1.2 and edgeStrength = 0.3. -/
structure Options where
  contrast : ℚ
  edgeStrength : ℚ
  deriving DecidableEq

/-- The source's destructuring defaults `contrast = 1.2`,
`edgeStrength = 0.3`. -/
def defaultOptions : Options := ⟨6/5, 3/10⟩

/-- Embeds `processFrame(sourceImageData, paletteKey, options)`: resolve the
palette (propagating the `Unknown palette` error), downscale to 128×112,
grayscale, contrast, edge enhancement only when edgeStrength > 0, then
dither and colorize. -/
def processFrame (sourceImageData : Image) (paletteKey : String) (options : Options) :
    Except String Image :=
  match getPaletteRgb paletteKey with
  | .error e => .error e
  | .ok paletteRgb =>
    let downscaled := downscale sourceImageData GBC_WIDTH GBC_HEIGHT
    let gray := toGrayscale downscaled
    let gray2 := applyContrast gray options.contrast
    let gray3 := if options.edgeStrength > 0 then edgeEnhance gray2 options.edgeStrength else gray2
    .ok (ditherAndColorize gray3 paletteRgb)

/-- Modelled from the spec: the source `upscaleNearest` delegates to the
browser canvas (`drawImage` with `imageSmoothingEnabled = false`), which is
code outside this repository. The spec describes it as exact deterministic
block replication: a new image of (W·scale, H·scale) whose output pixel
(x, y) equals source pixel (⌊x/scale⌋, ⌊y/scale⌋). -/
def upscaleNearest (source : Image) (scale : ℕ) : Image :=
  ⟨source.width * scale, source.height * scale,
   List.ofFn (fun i : Fin (source.width * scale * (source.height * scale)) =>
     let x := i.val % (source.width * scale)
     let y := i.val / (source.width * scale)
     source.get (x / scale) (y / scale))⟩

end CaMera

namespace CaMera

/-! Definitions written from the spec's words, for comparison with the
embedded source. -/

/-- The classic 4×4 Bayer index matrix named by the spec: the 16 distinct
integers 0..15 in the classic ordered-dither arrangement. -/
def specBayerIndex : List (List ℕ) :=
  [[0, 8, 2, 10],
   [12, 4, 14, 6],
   [3, 11, 1, 9],
   [15, 7, 13, 5]]

/-- The spec's ThresholdMatrix: the classic Bayer index matrix scaled to
fractions k/16 of 1. -/
def specThresholdMatrix : List (List ℚ) :=
  specBayerIndex.map (fun row => row.map (fun k => (k : ℚ) / 16))

/-- The spec's dithered value at channel value v and position (x, y):
v/255 + (ThresholdMatrix[y mod 4][x mod 4] − 0.5)·0.33. -/
def specDithered (v x y : ℕ) : ℚ :=
  (v : ℚ) / 255 + (((specThresholdMatrix.getD (y % 4) []).getD (x % 4) 0) - 1/2) * (33 / 100)

/-- The spec's quantization: level 0 if dithered < 0.25, 1 if < 0.5,
2 if < 0.75, else 3, with no prior clamping. -/
def specLevel (dithered : ℚ) : ℕ :=
  if dithered < 1/4 then 0
  else if dithered < 1/2 then 1
  else if dithered < 3/4 then 2
  else 3

/-- The spec's 3×3 weighted neighborhood sum at an interior pixel:
center weight 5, orthogonal neighbors −1, corners 0, all read from the
pre-enhancement image. -/
def specEdgeSum (img : Image) (x y : ℕ) : ℤ :=
  5 * ((img.get x y).r : ℤ)
    - ((img.get (x - 1) y).r : ℤ) - ((img.get (x + 1) y).r : ℤ)
    - ((img.get x (y - 1)).r : ℤ) - ((img.get x (y + 1)).r : ℤ)

/-- The spec's comparison pipeline for the edge-disable property: the
frame pipeline with the Edge Enhancer stage omitted entirely. -/
def processFrameNoEdge (sourceImageData : Image) (paletteKey : String) (options : Options) :
    Except String Image :=
  match getPaletteRgb paletteKey with
  | .error e => .error e
  | .ok paletteRgb =>
    let downscaled := downscale sourceImageData GBC_WIDTH GBC_HEIGHT
    let gray := toGrayscale downscaled
    let gray2 := applyContrast gray options.contrast
    .ok (ditherAndColorize gray2 paletteRgb)

/-- The six registered palette keys, in registry order. -/
def registeredKeys : List String :=
  ["classic", "sunset", "amber", "teal", "noir", "vaporwave"]

/-- The all-mid-gray 128×112 source frame of the spec's scenario. -/
def midGrayImage : Image :=
  ⟨128, 112, List.replicate (128 * 112) ⟨128, 128, 128, 255⟩⟩

/-- Classic palette level-0 output pixel (`#0f380f`, opaque). -/
def classicLevel0 : RGBA := ⟨15, 56, 15, 255⟩

/-- Classic palette level-1 output pixel (`#306230`, opaque). -/
def classicLevel1 : RGBA := ⟨48, 98, 48, 255⟩

/-- Classic palette level-2 output pixel (`#8bac0f`, opaque). -/
def classicLevel2 : RGBA := ⟨139, 172, 15, 255⟩

/-- Classic palette level-3 output pixel (`#9bbc0f`, opaque). -/
def classicLevel3 : RGBA := ⟨155, 188, 15, 255⟩

end CaMera

namespace CaMera

/-! Helper lemmas: index arithmetic, byte conversion, pixel access. -/

theorem index_lt {x y W H : ℕ} (hx : x < W) (hy : y < H) : y * W + x < W * H := by
  calc y * W + x < y * W + W := by omega
    _ = (y + 1) * W := by ring
    _ ≤ H * W := Nat.mul_le_mul_right W hy
    _ = W * H := Nat.mul_comm H W

theorem index_mod {x y W : ℕ} (hx : x < W) : (y * W + x) % W = x := by
  rw [Nat.mul_comm y W, Nat.mul_add_mod, Nat.mod_eq_of_lt hx]

theorem index_div {x y W : ℕ} (hx : x < W) : (y * W + x) / W = y := by
  have hW : 0 < W := lt_of_le_of_lt (Nat.zero_le x) hx
  rw [Nat.add_comm, Nat.mul_comm y W, Nat.add_mul_div_left x y hW,
    Nat.div_eq_of_lt hx, Nat.zero_add]

theorem ratFloor_natCast (v : ℕ) : ratFloor (v : ℚ) = v := by
  unfold ratFloor
  rw [Rat.num_natCast, Rat.den_natCast]
  simp

theorem roundHalfEven_natCast (v : ℕ) : roundHalfEven (v : ℚ) = v := by
  unfold roundHalfEven
  rw [ratFloor_natCast]
  norm_num

theorem toByte_natCast {v : ℕ} (hv : v ≤ 255) : toByte (v : ℚ) = v := by
  unfold toByte clamp255
  have h1 : min (255 : ℚ) (v : ℚ) = (v : ℚ) := min_eq_right (by exact_mod_cast hv)
  have h2 : max (0 : ℚ) (v : ℚ) = (v : ℚ) := max_eq_right (by positivity)
  rw [h1, h2, roundHalfEven_natCast]
  simp

theorem get_map_image (img : Image) (f : RGBA → RGBA) {x y : ℕ}
    (hwf : img.Wf) (hx : x < img.width) (hy : y < img.height) :
    (Image.mk img.width img.height (img.pixels.map f)).get x y = f (img.get x y) := by
  have hi : y * img.width + x < img.pixels.length := by
    rw [hwf]; exact index_lt hx hy
  have hi2 : y * img.width + x < (img.pixels.map f).length := by
    rwa [List.length_map]
  simp only [Image.get]
  rw [List.getD_eq_getElem _ _ hi2, List.getD_eq_getElem _ _ hi, List.getElem_map]

theorem get_mapIdx_image (img : Image) (f : ℕ → RGBA → RGBA) {x y : ℕ}
    (hwf : img.Wf) (hx : x < img.width) (hy : y < img.height) :
    (Image.mk img.width img.height (img.pixels.mapIdx f)).get x y
      = f (y * img.width + x) (img.get x y) := by
  have hi : y * img.width + x < img.pixels.length := by
    rw [hwf]; exact index_lt hx hy
  have hi2 : y * img.width + x < (img.pixels.mapIdx f).length := by
    rwa [List.length_mapIdx]
  simp only [Image.get]
  rw [List.getD_eq_getElem _ _ hi2, List.getD_eq_getElem _ _ hi]
  have h3 := List.get_mapIdx img.pixels f (y * img.width + x) hi hi2
  simp only [List.get_eq_getElem] at h3
  exact h3

theorem ditherAndColorize_get (img : Image) (pal : List (ℕ × ℕ × ℕ)) {x y : ℕ}
    (hwf : img.Wf) (hx : x < img.width) (hy : y < img.height) :
    (ditherAndColorize img pal).get x y = ditherPixel pal x y (img.get x y) := by
  unfold ditherAndColorize
  rw [get_mapIdx_image img _ hwf hx hy, index_mod hx, index_div hx]

theorem edgeEnhance_get (img : Image) (s : ℚ) {x y : ℕ}
    (hwf : img.Wf) (hx : x < img.width) (hy : y < img.height) :
    (edgeEnhance img s).get x y
      = if 1 ≤ x ∧ x + 1 < img.width ∧ 1 ≤ y ∧ y + 1 < img.height then
          enhancedPixel img s x y (img.get x y)
        else img.get x y := by
  unfold edgeEnhance
  rw [get_mapIdx_image img _ hwf hx hy, index_mod hx, index_div hx]

theorem wf_toGrayscale {img : Image} (h : img.Wf) : (toGrayscale img).Wf := by
  unfold Image.Wf toGrayscale at *
  rw [List.length_map]
  exact h

theorem wf_applyContrast {img : Image} (f : ℚ) (h : img.Wf) : (applyContrast img f).Wf := by
  unfold Image.Wf applyContrast at *
  simpa using h

theorem wf_edgeEnhance {img : Image} (s : ℚ) (h : img.Wf) : (edgeEnhance img s).Wf := by
  unfold Image.Wf edgeEnhance at *
  simpa [List.length_mapIdx] using h

theorem wf_ditherAndColorize {img : Image} (pal : List (ℕ × ℕ × ℕ)) (h : img.Wf) :
    (ditherAndColorize img pal).Wf := by
  unfold Image.Wf ditherAndColorize at *
  simpa [List.length_mapIdx] using h

theorem wf_downscale (src : Image) (tW tH : ℕ) : (downscale src tW tH).Wf := by
  unfold Image.Wf downscale
  simp [List.length_ofFn]

theorem shadeOf_lt_four (d : ℚ) : shadeOf d < 4 := by
  unfold shadeOf
  split_ifs <;> norm_num

theorem clamp255_natCast {v : ℕ} (hv : v ≤ 255) : clamp255 (v : ℚ) = (v : ℚ) := by
  unfold clamp255
  rw [min_eq_right (by exact_mod_cast hv), max_eq_right (by positivity)]

theorem contrastValue_one {v : ℕ} (hv : v ≤ 255) : contrastValue 1 v = v := by
  unfold contrastValue
  have hq : (((v : ℚ) / 255 - 1/2) * 1 + 1/2) * 255 = (v : ℚ) := by
    field_simp
    ring
  rw [hq, clamp255_natCast hv, toByte_natCast hv]

theorem list_map_self {α : Type} {f : α → α} :
    ∀ {l : List α}, (∀ x ∈ l, f x = x) → l.map f = l := by
  intro l
  induction l with
  | nil => intro _; rfl
  | cons a t ih =>
    intro h
    simp only [List.map_cons, List.cons.injEq]
    exact ⟨h a (by simp), ih (fun x hx => h x (by simp [hx]))⟩

theorem boxAvgChannel_single (src : Image) (ch : RGBA → ℕ) (x y : ℕ) :
    boxAvgChannel src ch x (x + 1) y (y + 1) = (ch (src.get x y) : ℚ) := by
  unfold boxAvgChannel
  have h1 : x + 1 - x = 1 := by omega
  have h2 : y + 1 - y = 1 := by omega
  rw [h1, h2, show List.range 1 = [0] from rfl]
  simp

theorem midGray_wf : midGrayImage.Wf := by
  show (List.replicate (128 * 112) (⟨128, 128, 128, 255⟩ : RGBA)).length = 128 * 112
  rw [List.length_replicate]

theorem midGray_get {x y : ℕ} (hx : x < 128) (hy : y < 112) :
    midGrayImage.get x y = ⟨128, 128, 128, 255⟩ := by
  have hi : y * 128 + x < 128 * 112 := index_lt hx hy
  show (List.replicate (128 * 112) (⟨128, 128, 128, 255⟩ : RGBA)).getD
      (y * 128 + x) ⟨0, 0, 0, 0⟩ = _
  rw [List.getD_eq_getElem _ _ (by rw [List.length_replicate]; exact hi),
    List.getElem_replicate]

theorem downscale_midGray : downscale midGrayImage 128 112 = midGrayImage := by
  unfold downscale
  have hpix : ∀ i : Fin (128 * 112),
      (⟨toByte (boxAvgChannel midGrayImage RGBA.r (i.val % 128 * midGrayImage.width / 128)
          ((i.val % 128 + 1) * midGrayImage.width / 128)
          (i.val / 128 * midGrayImage.height / 112)
          ((i.val / 128 + 1) * midGrayImage.height / 112)),
        toByte (boxAvgChannel midGrayImage RGBA.g (i.val % 128 * midGrayImage.width / 128)
          ((i.val % 128 + 1) * midGrayImage.width / 128)
          (i.val / 128 * midGrayImage.height / 112)
          ((i.val / 128 + 1) * midGrayImage.height / 112)),
        toByte (boxAvgChannel midGrayImage RGBA.b (i.val % 128 * midGrayImage.width / 128)
          ((i.val % 128 + 1) * midGrayImage.width / 128)
          (i.val / 128 * midGrayImage.height / 112)
          ((i.val / 128 + 1) * midGrayImage.height / 112)),
        toByte (boxAvgChannel midGrayImage RGBA.a (i.val % 128 * midGrayImage.width / 128)
          ((i.val % 128 + 1) * midGrayImage.width / 128)
          (i.val / 128 * midGrayImage.height / 112)
          ((i.val / 128 + 1) * midGrayImage.height / 112))⟩ : RGBA)
        = ⟨128, 128, 128, 255⟩ := by
    intro i
    have hx : i.val % 128 < 128 := by omega
    have hy : i.val / 128 < 112 := by
      have hlt := i.isLt
      omega
    have hw : midGrayImage.width = 128 := rfl
    have hh : midGrayImage.height = 112 := rfl
    rw [hw, hh]
    have e1 : i.val % 128 * 128 / 128 = i.val % 128 := by omega
    have e2 : (i.val % 128 + 1) * 128 / 128 = i.val % 128 + 1 := by omega
    have e3 : i.val / 128 * 112 / 112 = i.val / 128 := by omega
    have e4 : (i.val / 128 + 1) * 112 / 112 = i.val / 128 + 1 := by omega
    rw [e1, e2, e3, e4, boxAvgChannel_single, boxAvgChannel_single, boxAvgChannel_single,
      boxAvgChannel_single, midGray_get hx hy]
    have hr : toByte ((128 : ℕ) : ℚ) = 128 := toByte_natCast (by norm_num)
    have ha : toByte ((255 : ℕ) : ℚ) = 255 := toByte_natCast (by norm_num)
    simp only [RGBA.mk.injEq]
    exact ⟨hr, hr, hr, ha⟩
  simp only [midGrayImage, Image.mk.injEq, true_and]
  calc List.ofFn _ = List.ofFn (fun _ : Fin (128 * 112) => (⟨128, 128, 128, 255⟩ : RGBA)) := by
        congr 1
        funext i
        exact hpix i
    _ = List.replicate (128 * 112) ⟨128, 128, 128, 255⟩ := List.ofFn_const _ _

theorem toGrayscale_midGray : toGrayscale midGrayImage = midGrayImage := by
  unfold toGrayscale midGrayImage
  simp only [List.map_replicate, Image.mk.injEq, true_and]
  congr 1
  unfold grayPixel
  have hq : (299 / 1000 : ℚ) * ((128 : ℕ) : ℚ) + (587 / 1000 : ℚ) * ((128 : ℕ) : ℚ)
      + (114 / 1000 : ℚ) * ((128 : ℕ) : ℚ) = ((128 : ℕ) : ℚ) := by
    push_cast
    norm_num
  dsimp only
  rw [hq, toByte_natCast (by norm_num)]

theorem applyContrast_midGray : applyContrast midGrayImage 1 = midGrayImage := by
  unfold applyContrast midGrayImage
  simp only [List.map_replicate, Image.mk.injEq, true_and]
  congr 1
  dsimp only
  rw [contrastValue_one (by norm_num)]

theorem shade_of_k (k : ℕ) (hk : k < 16) :
    shadeOf ((128 : ℚ) / 255 + ((k : ℚ) / 16 - 1/2) * (33 / 100))
      = if 8 ≤ k then 2 else 1 := by
  interval_cases k <;> norm_num [shadeOf]

theorem bayer_index_eq_core : ∀ a b : ℕ, a < 4 → b < 4 →
    (BAYER_4x4.getD a []).getD b 0
      = (((specBayerIndex.getD a []).getD b 0 : ℕ) : ℚ) / 16 := by
  intro a b ha hb
  interval_cases a <;> interval_cases b <;> norm_num [BAYER_4x4, specBayerIndex]

theorem bayer_index_eq (y x : ℕ) :
    bayerAt y x = (((specBayerIndex.getD (y % 4) []).getD (x % 4) 0 : ℕ) : ℚ) / 16 := by
  unfold bayerAt
  exact bayer_index_eq_core _ _ (by omega) (by omega)

theorem bayer_index_lt_core : ∀ a < 4, ∀ b < 4,
    (specBayerIndex.getD a []).getD b 0 < 16 := by decide

theorem bayer_index_lt (y x : ℕ) :
    (specBayerIndex.getD (y % 4) []).getD (x % 4) 0 < 16 :=
  bayer_index_lt_core _ (by omega) _ (by omega)

theorem getPaletteRgb_classic :
    getPaletteRgb "classic"
      = .ok [(15, 56, 15), (48, 98, 48), (139, 172, 15), (155, 188, 15)] := rfl

theorem processFrame_midGray :
    processFrame midGrayImage "classic" ⟨1, 0⟩
      = .ok (ditherAndColorize midGrayImage
          [(15, 56, 15), (48, 98, 48), (139, 172, 15), (155, 188, 15)]) := by
  unfold processFrame
  rw [getPaletteRgb_classic]
  dsimp only
  rw [show downscale midGrayImage GBC_WIDTH GBC_HEIGHT = midGrayImage from downscale_midGray,
    toGrayscale_midGray, applyContrast_midGray, if_neg (lt_irrefl (0 : ℚ))]

theorem ditherPixel_midGray (x y : ℕ) :
    ditherPixel [(15, 56, 15), (48, 98, 48), (139, 172, 15), (155, 188, 15)] x y
        ⟨128, 128, 128, 255⟩
      = if (8 / 16 : ℚ) ≤ bayerAt y x then classicLevel2 else classicLevel1 := by
  unfold ditherPixel
  dsimp only
  rw [bayer_index_eq]
  have hk16 : (specBayerIndex.getD (y % 4) []).getD (x % 4) 0 < 16 := bayer_index_lt y x
  have hsh := shade_of_k _ hk16
  rw [show ((128 : ℕ) : ℚ) = (128 : ℚ) from rfl, hsh]
  have hiff : ((8 : ℚ) / 16 ≤ (((specBayerIndex.getD (y % 4) []).getD (x % 4) 0 : ℕ) : ℚ) / 16)
      ↔ 8 ≤ (specBayerIndex.getD (y % 4) []).getD (x % 4) 0 := by
    constructor
    · intro h
      have h8 : (8 : ℚ) ≤ (((specBayerIndex.getD (y % 4) []).getD (x % 4) 0 : ℕ) : ℚ) := by
        linarith
      exact_mod_cast h8
    · intro h
      have h8 : (8 : ℚ) ≤ (((specBayerIndex.getD (y % 4) []).getD (x % 4) 0 : ℕ) : ℚ) := by
        exact_mod_cast h
      linarith
  by_cases h8 : 8 ≤ (specBayerIndex.getD (y % 4) []).getD (x % 4) 0
  · rw [if_pos h8, if_pos (hiff.mpr h8)]
    rfl
  · rw [if_neg h8, if_neg (fun hc => h8 (hiff.mp hc))]
    rfl

theorem ditherPixel_red {p q : RGBA} (pal : List (ℕ × ℕ × ℕ)) (x y : ℕ) (h : p.r = q.r) :
    ditherPixel pal x y p = ditherPixel pal x y q := by
  unfold ditherPixel
  rw [h]

theorem edgeSum_eq_spec (img : Image) (x y : ℕ) :
    edgeSum img x y = specEdgeSum img x y := by
  unfold edgeSum specEdgeSum
  rw [show List.range 3 = [0, 1, 2] from rfl]
  simp only [List.foldl_cons, List.foldl_nil]
  norm_num [kernelAt, EDGE_KERNEL]
  ring

theorem upscale_get (src : Image) (scale : ℕ) {x y : ℕ}
    (hx : x < src.width * scale) (hy : y < src.height * scale) :
    (upscaleNearest src scale).get x y = src.get (x / scale) (y / scale) := by
  have hi : y * (src.width * scale) + x < src.width * scale * (src.height * scale) :=
    index_lt hx hy
  unfold upscaleNearest Image.get
  dsimp only
  rw [List.getD_eq_getElem _ _ (by rw [List.length_ofFn]; exact hi), List.getElem_ofFn]
  dsimp only
  rw [index_mod hx, index_div hx]

theorem palette_length {key : String} {pal : List (ℕ × ℕ × ℕ)}
    (h : getPaletteRgb key = .ok pal) : pal.length = 4 := by
  unfold getPaletteRgb lookupPalette at h
  split_ifs at h <;> simp only [Except.ok.injEq] at h <;> subst h <;> rfl

theorem processFrame_ok {src : Image} {key : String} {opts : Options} {out : Image}
    {pal : List (ℕ × ℕ × ℕ)}
    (hpal : getPaletteRgb key = .ok pal)
    (hrun : processFrame src key opts = .ok out) :
    out = ditherAndColorize
      (if opts.edgeStrength > 0 then
        edgeEnhance (applyContrast (toGrayscale (downscale src GBC_WIDTH GBC_HEIGHT))
          opts.contrast) opts.edgeStrength
      else
        applyContrast (toGrayscale (downscale src GBC_WIDTH GBC_HEIGHT)) opts.contrast)
      pal := by
  unfold processFrame at hrun
  rw [hpal] at hrun
  dsimp only at hrun
  simp only [Except.ok.injEq] at hrun
  exact hrun.symm

end CaMera

namespace CaMera

/-! Claim theorems. -/

/-- C1: at every pixel (x, y) of every image, ditherAndColorize computes the
dithered value v/255 + (ThresholdMatrix[y mod 4][x mod 4] − 0.5)·0.33 from the
pixel's channel value v, quantizes it with the fixed unclamped breakpoints
0.25 / 0.5 / 0.75 into levels 0–3, and writes the palette color of that level
with alpha 255; the code's threshold matrix equals the spec's ThresholdMatrix,
whose entries are the 16 distinct values {0,...,15}/16 in the classic Bayer
arrangement. -/
theorem c1_dither_formula (img : Image) (pal : List (ℕ × ℕ × ℕ)) {x y : ℕ}
    (hwf : img.Wf) (hx : x < img.width) (hy : y < img.height) :
    ((ditherAndColorize img pal).get x y
        = ⟨(pal.getD (specLevel (specDithered (img.get x y).r x y)) (0, 0, 0)).1,
           (pal.getD (specLevel (specDithered (img.get x y).r x y)) (0, 0, 0)).2.1,
           (pal.getD (specLevel (specDithered (img.get x y).r x y)) (0, 0, 0)).2.2, 255⟩)
      ∧ BAYER_4x4 = specThresholdMatrix
      ∧ specBayerIndex.flatten.Perm (List.range 16) := by
  have hmat : BAYER_4x4 = specThresholdMatrix := by
    norm_num [BAYER_4x4, specThresholdMatrix, specBayerIndex]
  refine ⟨?_, hmat, by decide⟩
  rw [ditherAndColorize_get img pal hwf hx hy]
  unfold ditherPixel specDithered specLevel shadeOf bayerAt
  rw [hmat]

/-- Witness for C1: a concrete 1×1 image with the classic palette colors. -/
theorem c1_witness :
    ((ditherAndColorize ⟨1, 1, [⟨200, 10, 20, 7⟩]⟩
          [(15, 56, 15), (48, 98, 48), (139, 172, 15), (155, 188, 15)]).get 0 0
        = ⟨([(15, 56, 15), (48, 98, 48), (139, 172, 15), (155, 188, 15)].getD
              (specLevel (specDithered ((Image.mk 1 1 [⟨200, 10, 20, 7⟩]).get 0 0).r 0 0))
              (0, 0, 0)).1,
           ([(15, 56, 15), (48, 98, 48), (139, 172, 15), (155, 188, 15)].getD
              (specLevel (specDithered ((Image.mk 1 1 [⟨200, 10, 20, 7⟩]).get 0 0).r 0 0))
              (0, 0, 0)).2.1,
           ([(15, 56, 15), (48, 98, 48), (139, 172, 15), (155, 188, 15)].getD
              (specLevel (specDithered ((Image.mk 1 1 [⟨200, 10, 20, 7⟩]).get 0 0).r 0 0))
              (0, 0, 0)).2.2, 255⟩)
      ∧ BAYER_4x4 = specThresholdMatrix
      ∧ specBayerIndex.flatten.Perm (List.range 16) :=
  c1_dither_formula ⟨1, 1, [⟨200, 10, 20, 7⟩]⟩
    [(15, 56, 15), (48, 98, 48), (139, 172, 15), (155, 188, 15)]
    (by decide) (by decide) (by decide)

/-- C2: the all-mid-gray 128×112 source with contrast 1, edgeStrength 0 and the
classic palette processes to a frame whose pixels carry only the classic
level-1 color (48, 98, 48) and level-2 color (139, 172, 15); level 2 appears
exactly where the Bayer entry is at least 8/16, and no pixel gets the level-0
or level-3 color. -/
theorem c2_midgray_scenario {x y : ℕ} (hx : x < 128) (hy : y < 112) :
    ∃ out, processFrame midGrayImage "classic" ⟨1, 0⟩ = .ok out
      ∧ out.get x y
          = (if (8 / 16 : ℚ) ≤ bayerAt y x then classicLevel2 else classicLevel1)
      ∧ out.get x y ≠ classicLevel0 ∧ out.get x y ≠ classicLevel3 := by
  have hval : (ditherAndColorize midGrayImage
        [(15, 56, 15), (48, 98, 48), (139, 172, 15), (155, 188, 15)]).get x y
      = if (8 / 16 : ℚ) ≤ bayerAt y x then classicLevel2 else classicLevel1 := by
    rw [ditherAndColorize_get midGrayImage _ midGray_wf hx hy, midGray_get hx hy,
      ditherPixel_midGray]
  exact ⟨_, processFrame_midGray, hval,
    by rw [hval]; split_ifs <;> decide,
    by rw [hval]; split_ifs <;> decide⟩

/-- Witness for C2 at pixel (0, 0). -/
theorem c2_witness :
    ∃ out, processFrame midGrayImage "classic" ⟨1, 0⟩ = .ok out
      ∧ out.get 0 0
          = (if (8 / 16 : ℚ) ≤ bayerAt 0 0 then classicLevel2 else classicLevel1)
      ∧ out.get 0 0 ≠ classicLevel0 ∧ out.get 0 0 ≠ classicLevel3 :=
  c2_midgray_scenario (by decide) (by decide)

/-- C5: processFrame is deterministic — two invocations on the same source,
palette key and parameters return equal results. -/
theorem c5_deterministic (src : Image) (key : String) (opts : Options)
    (out1 out2 : Except String Image)
    (h1 : processFrame src key opts = out1) (h2 : processFrame src key opts = out2) :
    out1 = out2 :=
  h1.symm.trans h2

/-- Witness for C5 on a concrete 1×1 frame. -/
theorem c5_witness :
    processFrame ⟨1, 1, [⟨0, 0, 0, 255⟩]⟩ "noir" ⟨1, 0⟩
      = processFrame ⟨1, 1, [⟨0, 0, 0, 255⟩]⟩ "noir" ⟨1, 0⟩ :=
  c5_deterministic ⟨1, 1, [⟨0, 0, 0, 255⟩]⟩ "noir" ⟨1, 0⟩ _ _ rfl rfl

/-- C7: with edgeStrength ≤ 0 (in particular 0) processFrame equals the
pipeline with the Edge Enhancer stage omitted entirely. -/
theorem c7_edge_disable (src : Image) (key : String) (opts : Options)
    (h : opts.edgeStrength ≤ 0) :
    processFrame src key opts = processFrameNoEdge src key opts := by
  unfold processFrame processFrameNoEdge
  cases hpal : getPaletteRgb key with
  | error e => rfl
  | ok pal =>
    dsimp only
    rw [if_neg (not_lt.mpr h)]

/-- Witness for C7 with edgeStrength 0 on a concrete frame. -/
theorem c7_witness :
    processFrame ⟨1, 1, [⟨9, 9, 9, 9⟩]⟩ "teal" ⟨6/5, 0⟩
      = processFrameNoEdge ⟨1, 1, [⟨9, 9, 9, 9⟩]⟩ "teal" ⟨6/5, 0⟩ :=
  c7_edge_disable ⟨1, 1, [⟨9, 9, 9, 9⟩]⟩ "teal" ⟨6/5, 0⟩ (le_refl 0)

/-- C8: applyContrast with factor 1 is the identity on every grayscale image,
and the per-value formula clamp(((v/255 − 0.5)·1 + 0.5)·255) stores back v. -/
theorem c8_contrast_identity (img : Image)
    (hgray : ∀ p ∈ img.pixels, p.r ≤ 255 ∧ p.g = p.r ∧ p.b = p.r) :
    applyContrast img 1 = img ∧ ∀ v : ℕ, v ≤ 255 → contrastValue 1 v = v := by
  constructor
  · obtain ⟨w, h, pix⟩ := img
    unfold applyContrast
    simp only [Image.mk.injEq, true_and]
    apply list_map_self
    intro p hp
    obtain ⟨h1, h2, h3⟩ := hgray p hp
    rw [contrastValue_one h1]
    cases p with
    | mk r g b a =>
      dsimp only at h2 h3 ⊢
      rw [h2, h3]
  · exact fun v hv => contrastValue_one hv

/-- Witness for C8 on a concrete grayscale image. -/
theorem c8_witness :
    applyContrast ⟨2, 1, [⟨10, 10, 10, 3⟩, ⟨255, 255, 255, 0⟩]⟩ 1
        = ⟨2, 1, [⟨10, 10, 10, 3⟩, ⟨255, 255, 255, 0⟩]⟩
      ∧ ∀ v : ℕ, v ≤ 255 → contrastValue 1 v = v :=
  c8_contrast_identity ⟨2, 1, [⟨10, 10, 10, 3⟩, ⟨255, 255, 255, 0⟩]⟩ (by decide)

/-- C10: the output of ditherAndColorize depends only on the red channel and
the pixel coordinates — two same-size inputs agreeing on every red value give
identical outputs regardless of their green, blue and alpha channels. -/
theorem c10_red_only (img1 img2 : Image) (pal : List (ℕ × ℕ × ℕ))
    (hw : img1.width = img2.width) (hh : img1.height = img2.height)
    (hl : img1.pixels.length = img2.pixels.length)
    (hr : ∀ i : ℕ, i < img1.pixels.length →
      (img1.pixels.getD i ⟨0, 0, 0, 0⟩).r = (img2.pixels.getD i ⟨0, 0, 0, 0⟩).r) :
    ditherAndColorize img1 pal = ditherAndColorize img2 pal := by
  obtain ⟨w1, h1, p1⟩ := img1
  obtain ⟨w2, h2, p2⟩ := img2
  subst hw
  subst hh
  unfold ditherAndColorize
  dsimp only
  simp only [Image.mk.injEq, true_and]
  apply List.ext_getElem
  · rw [List.length_mapIdx, List.length_mapIdx]
    exact hl
  · intro i hi1 hi2
    rw [List.length_mapIdx] at hi1 hi2
    have g1 := List.get_mapIdx p1 (fun i p => ditherPixel pal (i % w1) (i / w1) p) i hi1
      (by rw [List.length_mapIdx]; exact hi1)
    have g2 := List.get_mapIdx p2 (fun i p => ditherPixel pal (i % w1) (i / w1) p) i hi2
      (by rw [List.length_mapIdx]; exact hi2)
    simp only [List.get_eq_getElem] at g1 g2
    rw [g1, g2]
    apply ditherPixel_red
    have hri := hr i hi1
    rw [List.getD_eq_getElem _ _ hi1, List.getD_eq_getElem _ _ hi2] at hri
    exact hri

/-- Witness for C10: two 1×1 images agreeing on red, differing in g, b, a. -/
theorem c10_witness :
    ditherAndColorize ⟨1, 1, [⟨77, 1, 2, 3⟩]⟩
        [(0, 0, 0), (85, 85, 85), (170, 170, 170), (255, 255, 255)]
      = ditherAndColorize ⟨1, 1, [⟨77, 200, 201, 202⟩]⟩
          [(0, 0, 0), (85, 85, 85), (170, 170, 170), (255, 255, 255)] :=
  c10_red_only ⟨1, 1, [⟨77, 1, 2, 3⟩]⟩ ⟨1, 1, [⟨77, 200, 201, 202⟩]⟩
    [(0, 0, 0), (85, 85, 85), (170, 170, 170), (255, 255, 255)]
    rfl rfl rfl (by decide)

/-- C3: every pixel of the image produced by ditherAndColorize — hence of
every image returned by processFrame — carries exactly one of the 4 resolved
palette entries as its RGB triple and alpha 255. -/
theorem c3_palette_range (src : Image) (key : String) (opts : Options)
    (out : Image) (pal : List (ℕ × ℕ × ℕ))
    (hpal : getPaletteRgb key = .ok pal)
    (hrun : processFrame src key opts = .ok out) {x y : ℕ}
    (hx : x < out.width) (hy : y < out.height) :
    pal.length = 4 ∧ ∃ level, level < 4 ∧
      out.get x y = ⟨(pal.getD level (0, 0, 0)).1, (pal.getD level (0, 0, 0)).2.1,
        (pal.getD level (0, 0, 0)).2.2, 255⟩ := by
  refine ⟨palette_length hpal, ?_⟩
  have hout := processFrame_ok hpal hrun
  subst hout
  have hwf : (if opts.edgeStrength > 0 then
      edgeEnhance (applyContrast (toGrayscale (downscale src GBC_WIDTH GBC_HEIGHT))
        opts.contrast) opts.edgeStrength
    else
      applyContrast (toGrayscale (downscale src GBC_WIDTH GBC_HEIGHT)) opts.contrast).Wf := by
    have base : (applyContrast (toGrayscale (downscale src GBC_WIDTH GBC_HEIGHT))
        opts.contrast).Wf :=
      wf_applyContrast _ (wf_toGrayscale (wf_downscale src _ _))
    split
    · exact wf_edgeEnhance _ base
    · exact base
  rw [ditherAndColorize_get _ pal hwf hx hy]
  unfold ditherPixel
  exact ⟨_, shadeOf_lt_four _, rfl⟩

/-- Witness for C3 via the mid-gray scenario frame at pixel (0, 0). -/
theorem c3_witness :
    ([(15, 56, 15), (48, 98, 48), (139, 172, 15), (155, 188, 15)]
        : List (ℕ × ℕ × ℕ)).length = 4
      ∧ ∃ level, level < 4 ∧
        (ditherAndColorize midGrayImage
            [(15, 56, 15), (48, 98, 48), (139, 172, 15), (155, 188, 15)]).get 0 0
          = ⟨([(15, 56, 15), (48, 98, 48), (139, 172, 15), (155, 188, 15)].getD
                level (0, 0, 0)).1,
             ([(15, 56, 15), (48, 98, 48), (139, 172, 15), (155, 188, 15)].getD
                level (0, 0, 0)).2.1,
             ([(15, 56, 15), (48, 98, 48), (139, 172, 15), (155, 188, 15)].getD
                level (0, 0, 0)).2.2, 255⟩ :=
  c3_palette_range midGrayImage "classic" ⟨1, 0⟩ _
    [(15, 56, 15), (48, 98, 48), (139, 172, 15), (155, 188, 15)]
    rfl processFrame_midGray (by decide) (by decide)

/-- C4, failing input: the key `toString` is not one of the six registered
palette keys, yet processFrame does not raise the Unknown-palette error
carrying the key — the property read `PALETTES[key]` finds the inherited
`Object.prototype.toString`, which passes the `!palette` guard, and reading
`.colors` of it raises a TypeError instead. The pipeline still produces no
output image. -/
theorem c4_prototype_chain_bug (src : Image) (opts : Options) :
    "toString" ∉ registeredKeys
      ∧ processFrame src "toString" opts
          = .error "TypeError: palette.colors is undefined"
      ∧ processFrame src "toString" opts ≠ .error ("Unknown palette: " ++ "toString")
      ∧ ∀ out : Image, processFrame src "toString" opts ≠ .ok out := by
  have hrun : processFrame src "toString" opts
      = .error "TypeError: palette.colors is undefined" := by
    unfold processFrame
    rw [show getPaletteRgb "toString"
      = .error "TypeError: palette.colors is undefined" from rfl]
  refine ⟨by decide, hrun, ?_, ?_⟩
  · rw [hrun]
    intro h
    exact absurd (Except.error.inj h) (by decide)
  · intro out
    rw [hrun]
    exact Except.noConfusion

/-- C6: for positive strength, edgeEnhance leaves every border pixel
unchanged, and writes to every interior pixel the clamped blend of its
original value with the 3×3 kernel sum (center 5, orthogonal −1, corners 0)
computed entirely from the pre-stage snapshot. -/
theorem c6_edge_snapshot (img : Image) (s : ℚ) (_hs : 0 < s) (hwf : img.Wf) {x y : ℕ}
    (hx : x < img.width) (hy : y < img.height) :
    ((x = 0 ∨ x = img.width - 1 ∨ y = 0 ∨ y = img.height - 1) →
        (edgeEnhance img s).get x y = img.get x y)
    ∧ ((1 ≤ x ∧ x ≤ img.width - 2 ∧ 1 ≤ y ∧ y ≤ img.height - 2) →
        (edgeEnhance img s).get x y
          = ⟨toByte (((img.get x y).r : ℚ) * (1 - s) + (specEdgeSum img x y : ℚ) * s),
             toByte (((img.get x y).r : ℚ) * (1 - s) + (specEdgeSum img x y : ℚ) * s),
             toByte (((img.get x y).r : ℚ) * (1 - s) + (specEdgeSum img x y : ℚ) * s),
             (img.get x y).a⟩) := by
  constructor
  · intro hb
    rw [edgeEnhance_get img s hwf hx hy, if_neg (by omega)]
  · intro hint
    rw [edgeEnhance_get img s hwf hx hy, if_pos (by omega)]
    unfold enhancedPixel
    rw [edgeSum_eq_spec]

/-- Witness for C6 on a concrete 3×3 image at the interior pixel (1, 1)
with strength 1. -/
theorem c6_witness :
    ((1 = 0 ∨ 1 = (Image.mk 3 3 [⟨10, 0, 0, 1⟩, ⟨20, 0, 0, 1⟩, ⟨30, 0, 0, 1⟩,
          ⟨40, 0, 0, 1⟩, ⟨50, 0, 0, 1⟩, ⟨60, 0, 0, 1⟩,
          ⟨70, 0, 0, 1⟩, ⟨80, 0, 0, 1⟩, ⟨90, 0, 0, 1⟩]).width - 1
        ∨ 1 = 0 ∨ 1 = (Image.mk 3 3 [⟨10, 0, 0, 1⟩, ⟨20, 0, 0, 1⟩, ⟨30, 0, 0, 1⟩,
          ⟨40, 0, 0, 1⟩, ⟨50, 0, 0, 1⟩, ⟨60, 0, 0, 1⟩,
          ⟨70, 0, 0, 1⟩, ⟨80, 0, 0, 1⟩, ⟨90, 0, 0, 1⟩]).height - 1) →
      (edgeEnhance (Image.mk 3 3 [⟨10, 0, 0, 1⟩, ⟨20, 0, 0, 1⟩, ⟨30, 0, 0, 1⟩,
          ⟨40, 0, 0, 1⟩, ⟨50, 0, 0, 1⟩, ⟨60, 0, 0, 1⟩,
          ⟨70, 0, 0, 1⟩, ⟨80, 0, 0, 1⟩, ⟨90, 0, 0, 1⟩]) 1).get 1 1
        = (Image.mk 3 3 [⟨10, 0, 0, 1⟩, ⟨20, 0, 0, 1⟩, ⟨30, 0, 0, 1⟩,
          ⟨40, 0, 0, 1⟩, ⟨50, 0, 0, 1⟩, ⟨60, 0, 0, 1⟩,
          ⟨70, 0, 0, 1⟩, ⟨80, 0, 0, 1⟩, ⟨90, 0, 0, 1⟩]).get 1 1)
    ∧ ((1 ≤ 1 ∧ 1 ≤ (Image.mk 3 3 [⟨10, 0, 0, 1⟩, ⟨20, 0, 0, 1⟩, ⟨30, 0, 0, 1⟩,
          ⟨40, 0, 0, 1⟩, ⟨50, 0, 0, 1⟩, ⟨60, 0, 0, 1⟩,
          ⟨70, 0, 0, 1⟩, ⟨80, 0, 0, 1⟩, ⟨90, 0, 0, 1⟩]).width - 2
        ∧ 1 ≤ 1 ∧ 1 ≤ (Image.mk 3 3 [⟨10, 0, 0, 1⟩, ⟨20, 0, 0, 1⟩, ⟨30, 0, 0, 1⟩,
          ⟨40, 0, 0, 1⟩, ⟨50, 0, 0, 1⟩, ⟨60, 0, 0, 1⟩,
          ⟨70, 0, 0, 1⟩, ⟨80, 0, 0, 1⟩, ⟨90, 0, 0, 1⟩]).height - 2) →
      (edgeEnhance (Image.mk 3 3 [⟨10, 0, 0, 1⟩, ⟨20, 0, 0, 1⟩, ⟨30, 0, 0, 1⟩,
          ⟨40, 0, 0, 1⟩, ⟨50, 0, 0, 1⟩, ⟨60, 0, 0, 1⟩,
          ⟨70, 0, 0, 1⟩, ⟨80, 0, 0, 1⟩, ⟨90, 0, 0, 1⟩]) 1).get 1 1
        = ⟨toByte ((((Image.mk 3 3 [⟨10, 0, 0, 1⟩, ⟨20, 0, 0, 1⟩, ⟨30, 0, 0, 1⟩,
              ⟨40, 0, 0, 1⟩, ⟨50, 0, 0, 1⟩, ⟨60, 0, 0, 1⟩,
              ⟨70, 0, 0, 1⟩, ⟨80, 0, 0, 1⟩, ⟨90, 0, 0, 1⟩]).get 1 1).r : ℚ) * (1 - 1)
            + (specEdgeSum (Image.mk 3 3 [⟨10, 0, 0, 1⟩, ⟨20, 0, 0, 1⟩, ⟨30, 0, 0, 1⟩,
              ⟨40, 0, 0, 1⟩, ⟨50, 0, 0, 1⟩, ⟨60, 0, 0, 1⟩,
              ⟨70, 0, 0, 1⟩, ⟨80, 0, 0, 1⟩, ⟨90, 0, 0, 1⟩]) 1 1 : ℚ) * 1),
           toByte ((((Image.mk 3 3 [⟨10, 0, 0, 1⟩, ⟨20, 0, 0, 1⟩, ⟨30, 0, 0, 1⟩,
              ⟨40, 0, 0, 1⟩, ⟨50, 0, 0, 1⟩, ⟨60, 0, 0, 1⟩,
              ⟨70, 0, 0, 1⟩, ⟨80, 0, 0, 1⟩, ⟨90, 0, 0, 1⟩]).get 1 1).r : ℚ) * (1 - 1)
            + (specEdgeSum (Image.mk 3 3 [⟨10, 0, 0, 1⟩, ⟨20, 0, 0, 1⟩, ⟨30, 0, 0, 1⟩,
              ⟨40, 0, 0, 1⟩, ⟨50, 0, 0, 1⟩, ⟨60, 0, 0, 1⟩,
              ⟨70, 0, 0, 1⟩, ⟨80, 0, 0, 1⟩, ⟨90, 0, 0, 1⟩]) 1 1 : ℚ) * 1),
           toByte ((((Image.mk 3 3 [⟨10, 0, 0, 1⟩, ⟨20, 0, 0, 1⟩, ⟨30, 0, 0, 1⟩,
              ⟨40, 0, 0, 1⟩, ⟨50, 0, 0, 1⟩, ⟨60, 0, 0, 1⟩,
              ⟨70, 0, 0, 1⟩, ⟨80, 0, 0, 1⟩, ⟨90, 0, 0, 1⟩]).get 1 1).r : ℚ) * (1 - 1)
            + (specEdgeSum (Image.mk 3 3 [⟨10, 0, 0, 1⟩, ⟨20, 0, 0, 1⟩, ⟨30, 0, 0, 1⟩,
              ⟨40, 0, 0, 1⟩, ⟨50, 0, 0, 1⟩, ⟨60, 0, 0, 1⟩,
              ⟨70, 0, 0, 1⟩, ⟨80, 0, 0, 1⟩, ⟨90, 0, 0, 1⟩]) 1 1 : ℚ) * 1),
           ((Image.mk 3 3 [⟨10, 0, 0, 1⟩, ⟨20, 0, 0, 1⟩, ⟨30, 0, 0, 1⟩,
              ⟨40, 0, 0, 1⟩, ⟨50, 0, 0, 1⟩, ⟨60, 0, 0, 1⟩,
              ⟨70, 0, 0, 1⟩, ⟨80, 0, 0, 1⟩, ⟨90, 0, 0, 1⟩]).get 1 1).a⟩) :=
  c6_edge_snapshot _ 1 zero_lt_one (by decide) (by decide) (by decide)

/-- C9: upscaleNearest produces a (W·scale) × (H·scale) image whose pixel
(x, y) equals source pixel (x / scale, y / scale) exactly; in particular at
scale 3 output pixel (5, 5) equals source pixel (1, 1), and scale 1 returns
an equal copy. -/
theorem c9_upscale_exact (src : Image) (scale : ℕ) (_hs : 0 < scale) (hwf : src.Wf) :
    (upscaleNearest src scale).width = src.width * scale
    ∧ (upscaleNearest src scale).height = src.height * scale
    ∧ (∀ x y : ℕ, x < src.width * scale → y < src.height * scale →
        (upscaleNearest src scale).get x y = src.get (x / scale) (y / scale))
    ∧ (2 ≤ src.width → 2 ≤ src.height →
        (upscaleNearest src 3).get 5 5 = src.get 1 1)
    ∧ upscaleNearest src 1 = src := by
  refine ⟨rfl, rfl, fun x y hx hy => upscale_get src scale hx hy, ?_, ?_⟩
  · intro hw hh
    have h5 : (upscaleNearest src 3).get 5 5 = src.get (5 / 3) (5 / 3) :=
      upscale_get src 3 (by omega) (by omega)
    rw [h5]
  · obtain ⟨w, h, pix⟩ := src
    have hl : pix.length = w * h := hwf
    unfold upscaleNearest
    congr 1
    · exact Nat.mul_one w
    · exact Nat.mul_one h
    · apply List.ext_getElem
      · rw [List.length_ofFn, hl]
        simp [Nat.mul_one]
      · intro i hi1 hi2
        rw [List.getElem_ofFn]
        dsimp only
        simp only [Nat.mul_one, Nat.div_one]
        unfold Image.get
        dsimp only
        rw [show i / w * w + i % w = i from by rw [Nat.mul_comm]; exact Nat.div_add_mod i w]
        exact List.getD_eq_getElem _ _ hi2

/-- Witness for C9 on a concrete 2×2 image at scale 3. -/
theorem c9_witness :
    (upscaleNearest ⟨2, 2, [⟨1, 1, 1, 1⟩, ⟨2, 2, 2, 2⟩, ⟨3, 3, 3, 3⟩, ⟨4, 4, 4, 4⟩]⟩ 3).width
        = (Image.mk 2 2 [⟨1, 1, 1, 1⟩, ⟨2, 2, 2, 2⟩, ⟨3, 3, 3, 3⟩, ⟨4, 4, 4, 4⟩]).width * 3
      ∧ (upscaleNearest ⟨2, 2, [⟨1, 1, 1, 1⟩, ⟨2, 2, 2, 2⟩, ⟨3, 3, 3, 3⟩, ⟨4, 4, 4, 4⟩]⟩ 3).height
        = (Image.mk 2 2 [⟨1, 1, 1, 1⟩, ⟨2, 2, 2, 2⟩, ⟨3, 3, 3, 3⟩, ⟨4, 4, 4, 4⟩]).height * 3
      ∧ (∀ x y : ℕ,
          x < (Image.mk 2 2 [⟨1, 1, 1, 1⟩, ⟨2, 2, 2, 2⟩, ⟨3, 3, 3, 3⟩, ⟨4, 4, 4, 4⟩]).width * 3 →
          y < (Image.mk 2 2 [⟨1, 1, 1, 1⟩, ⟨2, 2, 2, 2⟩, ⟨3, 3, 3, 3⟩, ⟨4, 4, 4, 4⟩]).height * 3 →
          (upscaleNearest ⟨2, 2, [⟨1, 1, 1, 1⟩, ⟨2, 2, 2, 2⟩, ⟨3, 3, 3, 3⟩, ⟨4, 4, 4, 4⟩]⟩ 3).get x y
            = (Image.mk 2 2 [⟨1, 1, 1, 1⟩, ⟨2, 2, 2, 2⟩, ⟨3, 3, 3, 3⟩,
                ⟨4, 4, 4, 4⟩]).get (x / 3) (y / 3))
      ∧ (2 ≤ (Image.mk 2 2 [⟨1, 1, 1, 1⟩, ⟨2, 2, 2, 2⟩, ⟨3, 3, 3, 3⟩, ⟨4, 4, 4, 4⟩]).width →
          2 ≤ (Image.mk 2 2 [⟨1, 1, 1, 1⟩, ⟨2, 2, 2, 2⟩, ⟨3, 3, 3, 3⟩, ⟨4, 4, 4, 4⟩]).height →
          (upscaleNearest ⟨2, 2, [⟨1, 1, 1, 1⟩, ⟨2, 2, 2, 2⟩, ⟨3, 3, 3, 3⟩, ⟨4, 4, 4, 4⟩]⟩ 3).get 5 5
            = (Image.mk 2 2 [⟨1, 1, 1, 1⟩, ⟨2, 2, 2, 2⟩, ⟨3, 3, 3, 3⟩, ⟨4, 4, 4, 4⟩]).get 1 1)
      ∧ upscaleNearest ⟨2, 2, [⟨1, 1, 1, 1⟩, ⟨2, 2, 2, 2⟩, ⟨3, 3, 3, 3⟩, ⟨4, 4, 4, 4⟩]⟩ 1
          = ⟨2, 2, [⟨1, 1, 1, 1⟩, ⟨2, 2, 2, 2⟩, ⟨3, 3, 3, 3⟩, ⟨4, 4, 4, 4⟩]⟩ :=
  c9_upscale_exact ⟨2, 2, [⟨1, 1, 1, 1⟩, ⟨2, 2, 2, 2⟩, ⟨3, 3, 3, 3⟩, ⟨4, 4, 4, 4⟩]⟩ 3
    (by decide) (by decide)

end CaMera

